import Mathlib

/-!
Verification of the caddy-ipv64 DNS-01 provider.

The repository contains two variants of the provider:
  * variant V1, file `dns_ipv64.go` (functions `doWithRetryForm`,
    `deriveManagedZone`, `AppendRecords`, `DeleteRecords` — synchronous);
  * variant V2, file `caddy-ipv64/dns_ipv64.go` (functions `doWithRetry`,
    `relativePrefix`, `AppendRecords`, `DeleteRecords` — asynchronous).

Every definition below is a shallow embedding of the corresponding Go
function; the name of the Go function is kept wherever possible.  HTTP
traffic is abstracted by an oracle `doCall : Nat → DoResult` giving the
outcome of the i-th physical attempt, and the caller's context by an
oracle `cancelAt : Nat → Bool` telling whether the context is already
done when the k-th sleep of the run starts.
-/

/-- Outcome data of one HTTP response, as observed by the Go code.
`retryAfter` models the `Retry-After` header combined with Go's
`time.ParseDuration(ra + "s")` call: `none` = header absent (`ra == ""`),
`some none` = header present but unparseable, `some (some ms)` = header
parses to a sleep of `ms` milliseconds. -/
structure HttpResponse where
  statusCode : Nat
  status : String
  retryAfter : Option (Option Nat)
  body : String
deriving DecidableEq

/-- Result of one `client.Do(req)` call: a network-level error carrying
`err.Error()`, or a response. -/
inductive DoResult where
  | failure (msg : String)
  | success (resp : HttpResponse)
deriving DecidableEq

/-- Trace of one run of V1's `doWithRetryForm`: number of `client.Do`
calls, the completed sleep durations (ms, in order), and the returned
error (`none` = success). -/
structure RetryTraceV1 where
  attempts : Nat
  sleeps : List Nat
  result : Option String
deriving DecidableEq

/-- Result of V2's `doWithRetry`: the returned `(resp, nil)`, the
returned `(nil, lastErr)` (where `lastErr` may itself be nil), or the
returned `(nil, ctx.Err())` from a pre-empted sleep. -/
inductive RetryResultV2 where
  | ok (resp : HttpResponse)
  | err (e : Option String)
  | cancelled
deriving DecidableEq

/-- Trace of one run of V2's `doWithRetry`. -/
structure RetryTraceV2 where
  attempts : Nat
  sleeps : List Nat
  result : RetryResultV2
deriving DecidableEq

/-- Go `strings.Contains s pat` (pat an infix of s), on character lists. -/
def charsContain : List Char → List Char → Bool
  | cs, pat =>
    match cs with
    | [] => pat.isEmpty
    | c :: rest => pat.isPrefixOf (c :: rest) || charsContain rest pat

/-- Go `strings.Contains`. -/
def containsGo (s pat : String) : Bool :=
  charsContain s.data pat.data

/-- Body of V1's `doWithRetryForm` loop (`dns_ipv64.go` lines 242-282):
`for attempt := 0; attempt < p.MaxRetries; attempt++`.  The first
argument after the oracle and `maxRetries` is the number of loop
iterations still allowed, then the current `attempt` index and the
current `backoff` (ms).  A network error is retried only when its text
contains "timeout" or "connection"; 2xx returns nil; 429 and 5xx sleep
`backoff` (a plain `time.Sleep`, so no cancellation is consulted),
double it and continue; any other status returns the terminal error
built from the status line and body.  Exhaustion returns the
"failed after %d attempts" error. -/
def doWithRetryFormAux (doCall : Nat → DoResult) (maxRetries : Nat) :
    Nat → Nat → Nat → RetryTraceV1
  | 0, _, _ =>
    { attempts := 0, sleeps := [],
      result := some ("ipv64 API failed after " ++ toString maxRetries ++ " attempts") }
  | r + 1, attempt, backoff =>
    match doCall attempt with
    | DoResult.failure msg =>
      if containsGo msg "timeout" || containsGo msg "connection" then
        let t := doWithRetryFormAux doCall maxRetries r (attempt + 1) (backoff * 2)
        { attempts := t.attempts + 1, sleeps := backoff :: t.sleeps, result := t.result }
      else
        { attempts := 1, sleeps := [], result := some msg }
    | DoResult.success resp =>
      if 200 ≤ resp.statusCode ∧ resp.statusCode < 300 then
        { attempts := 1, sleeps := [], result := none }
      else if resp.statusCode = 429 ∨ 500 ≤ resp.statusCode then
        let t := doWithRetryFormAux doCall maxRetries r (attempt + 1) (backoff * 2)
        { attempts := t.attempts + 1, sleeps := backoff :: t.sleeps, result := t.result }
      else
        { attempts := 1, sleeps := [],
          result := some ("ipv64 API error: " ++ resp.status ++ " (response: " ++ resp.body ++ ")") }

/-- V1's `doWithRetryForm` (`dns_ipv64.go` lines 242-282). -/
def doWithRetryForm (doCall : Nat → DoResult) (maxRetries backoff : Nat) : RetryTraceV1 :=
  doWithRetryFormAux doCall maxRetries maxRetries 0 backoff

/-- Body of V2's `doWithRetry` loop (`caddy-ipv64/dns_ipv64.go` lines
278-334): `for attempt := 0; attempt <= maxRetries; attempt++`, so the
wrapper below starts with `maxRetries + 1` remaining iterations; the
Go test `attempt == maxRetries` is `r = 0` here.  5xx records
`lastErr` and falls through to the bottom of the loop (break when out
of attempts, else a cancellable backoff sleep); 429 always performs a
cancellable sleep of the parsed `Retry-After` value if present,
otherwise of the current backoff, doubles the backoff and continues
(skipping the bottom check, as Go's `continue` does); any other
response is returned as-is with a nil error.  A network error is
recorded as `lastErr` and falls through like a 5xx.  Both sleep sites
are `select`s racing `ctx.Done()`; a pre-empted sleep returns
`ctx.Err()` immediately. -/
def doWithRetryAux (doCall : Nat → DoResult) (cancelAt : Nat → Bool) :
    Nat → Nat → Nat → Nat → Option String → RetryTraceV2
  | 0, _, _, _, lastErr =>
    { attempts := 0, sleeps := [], result := RetryResultV2.err lastErr }
  | r + 1, attempt, sleepIdx, backoff, lastErr =>
    match doCall attempt with
    | DoResult.success resp =>
      if 500 ≤ resp.statusCode then
        let newErr := some ("server error " ++ toString resp.statusCode ++ ": " ++ resp.body)
        if r = 0 then
          { attempts := 1, sleeps := [], result := RetryResultV2.err newErr }
        else if cancelAt sleepIdx then
          { attempts := 1, sleeps := [], result := RetryResultV2.cancelled }
        else
          let t := doWithRetryAux doCall cancelAt r (attempt + 1) (sleepIdx + 1) (backoff * 2) newErr
          { attempts := t.attempts + 1, sleeps := backoff :: t.sleeps, result := t.result }
      else if resp.statusCode = 429 then
        let sleepLen :=
          match resp.retryAfter with
          | some (some ms) => ms
          | _ => backoff
        if cancelAt sleepIdx then
          { attempts := 1, sleeps := [], result := RetryResultV2.cancelled }
        else
          let t := doWithRetryAux doCall cancelAt r (attempt + 1) (sleepIdx + 1) (backoff * 2) lastErr
          { attempts := t.attempts + 1, sleeps := sleepLen :: t.sleeps, result := t.result }
      else
        { attempts := 1, sleeps := [], result := RetryResultV2.ok resp }
    | DoResult.failure msg =>
      if r = 0 then
        { attempts := 1, sleeps := [], result := RetryResultV2.err (some msg) }
      else if cancelAt sleepIdx then
        { attempts := 1, sleeps := [], result := RetryResultV2.cancelled }
      else
        let t := doWithRetryAux doCall cancelAt r (attempt + 1) (sleepIdx + 1) (backoff * 2) (some msg)
        { attempts := t.attempts + 1, sleeps := backoff :: t.sleeps, result := t.result }

/-- V2's `doWithRetry` (`caddy-ipv64/dns_ipv64.go` lines 278-334). -/
def doWithRetry (doCall : Nat → DoResult) (cancelAt : Nat → Bool)
    (maxRetries backoff : Nat) : RetryTraceV2 :=
  doWithRetryAux doCall cancelAt (maxRetries + 1) 0 0 backoff none

/-- Status classification performed by V2's `AppendRecords` on the
response returned by `doWithRetry` (`caddy-ipv64/dns_ipv64.go` lines
147-155): exactly the statuses 200, 201 and 202 count as success; any
other returned status becomes a terminal error built from the status
line and the response body. -/
def createStatusError (resp : HttpResponse) : Option String :=
  if resp.statusCode = 200 ∨ resp.statusCode = 201 ∨ resp.statusCode = 202 then
    none
  else
    some ("ipv64.net API error: " ++ resp.status ++ " " ++ resp.body)

/-- Go `strings.HasPrefix`. -/
def startsWithGo (s pre : String) : Bool :=
  pre.data.isPrefixOf s.data

/-- Go `strings.HasSuffix`. -/
def endsWithGo (s suf : String) : Bool :=
  suf.data.isSuffixOf s.data

/-- Go `strings.TrimPrefix`. -/
def trimPrefixGo (s pre : String) : String :=
  if pre.data.isPrefixOf s.data then String.mk (s.data.drop pre.data.length) else s

/-- Go `strings.TrimSuffix`. -/
def trimSuffixGo (s suf : String) : String :=
  if suf.data.isSuffixOf s.data then
    String.mk (s.data.take (s.data.length - suf.data.length))
  else s

/-- Go `strings.Split(s, ".")` on character lists: splitting the empty
string yields one empty field, and every dot starts a new field. -/
def splitCharsDots : List Char → List (List Char)
  | [] => [[]]
  | c :: cs =>
    let r := splitCharsDots cs
    if c = '.' then [] :: r
    else
      match r with
      | h :: t => (c :: h) :: t
      | [] => [[c]]

/-- Go `strings.Split(s, ".")`. -/
def splitDotsGo (s : String) : List String :=
  (splitCharsDots s.data).map String.mk

/-- Go `strings.Join(parts, ".")`. -/
def joinDotsGo : List String → String
  | [] => ""
  | [s] => s
  | s :: rest => s ++ "." ++ joinDotsGo rest

/-- ASCII case folding of one character (the record names handled by
the provider are ASCII domain names, for which Go's `strings.ToLower`
acts exactly like this). -/
def lowerChar (c : Char) : Char :=
  if 'A' ≤ c ∧ c ≤ 'Z' then Char.ofNat (c.toNat + 32) else c

/-- Go `strings.ToLower` on ASCII domain names. -/
def toLowerGo (s : String) : String :=
  String.mk (s.data.map lowerChar)

/-- ASCII upper-casing of one character, mirroring `lowerChar`. -/
def upperChar (c : Char) : Char :=
  if 'a' ≤ c ∧ c ≤ 'z' then Char.ofNat (c.toNat - 32) else c

/-- Go `strings.ToUpper` on ASCII record types. -/
def toUpperGo (s : String) : String :=
  String.mk (s.data.map upperChar)

/-- One candidate test of V1's `deriveManagedZone` scan (`dns_ipv64.go`
lines 355-368): join the labels from index `i` on, re-split them, and
accept the candidate when it has exactly three labels whose middle
label ends in "64" and whose last label is "de" or "net". -/
def cand64 (parts : List String) (i : Nat) : Option String :=
  let candidate := joinDotsGo (parts.drop i)
  let candidateParts := splitDotsGo candidate
  if candidateParts.length = 3 then
    let service := candidateParts.getD 1 ""
    let tld := candidateParts.getD 2 ""
    if endsWithGo service "64" ∧ (tld = "de" ∨ tld = "net") then some candidate else none
  else none

/-- The right-to-left scan `for i := len(parts)-2; i >= 0; i--` of V1's
`deriveManagedZone`, started at index `len(parts) - 2`; the first
candidate accepted by `cand64` wins. -/
def scan64 (parts : List String) : Nat → Option String
  | 0 => cand64 parts 0
  | i + 1 =>
    match cand64 parts (i + 1) with
    | some c => some c
    | none => scan64 parts i

/-- Heuristic part of V1's `deriveManagedZone` (`dns_ipv64.go` lines
352-373): run the `scan64` scan when the name has at least three
labels; on a miss (or fewer than three labels) fall back to the working
name itself.  The `return zone` on line 374 of the source is
unreachable (it follows `return workingFqdn`). -/
def deriveHeuristic (workingFqdn : String) : String :=
  let parts := splitDotsGo workingFqdn
  if 3 ≤ parts.length then
    match scan64 parts (parts.length - 2) with
    | some c => c
    | none => workingFqdn
  else workingFqdn

/-- The `workingFqdn` computation of V1's `deriveManagedZone`
(`dns_ipv64.go` lines 347-350): strip one literal `_acme-challenge.`
prefix from the (already dot-trimmed) fqdn when present. -/
def challengeStripped (f : String) : String :=
  if startsWithGo f "_acme-challenge." then trimPrefixGo f "_acme-challenge." else f

/-- V1's `deriveManagedZone` (`dns_ipv64.go` lines 330-375): trim
trailing dots, return the zone when the fqdn equals it, otherwise
return the configured override when non-empty, otherwise strip a
literal `_acme-challenge.` prefix and run the heuristic. -/
def deriveManagedZone (pDomain fqdn0 zone0 : String) : String :=
  let fqdn := trimSuffixGo fqdn0 "."
  let zone := trimSuffixGo zone0 "."
  if fqdn = zone then zone
  else if pDomain ≠ "" then trimSuffixGo pDomain "."
  else deriveHeuristic (challengeStripped fqdn)

/-- Relative-label computation of V1's `AppendRecords` (`dns_ipv64.go`
lines 126-139; `DeleteRecords` lines 194-208 are identical): "@" when
the cleaned fqdn equals the cleaned managed domain, the fqdn with
"." ++ managed stripped when it is a dot-suffix, and otherwise the part
of the fqdn before the first dot (`parts[0]`). -/
def computePrefixV1 (fqdn managed : String) : String :=
  let fqdnClean := trimSuffixGo fqdn "."
  let managedClean := trimSuffixGo managed "."
  if fqdnClean = managedClean then "@"
  else if endsWithGo fqdnClean ("." ++ managedClean) then
    trimSuffixGo fqdnClean ("." ++ managedClean)
  else (splitDotsGo fqdnClean).getD 0 ""

/-- V2's `relativePrefix` (`caddy-ipv64/dns_ipv64.go` lines 338-349):
lower-case and trim both names; "@" on equality, suffix-stripping on a
dot-suffix match, and otherwise the whole cleaned name ("fall back to
original name"). -/
def relativePrefixV2 (fullName domain : String) : String :=
  let f := trimSuffixGo (toLowerGo fullName) "."
  let d := trimSuffixGo (toLowerGo domain) "."
  if f = d then "@"
  else if endsWithGo f ("." ++ d) then trimSuffixGo f ("." ++ d)
  else f

/-- A libdns record as used by the provider: the record name, the
record type and the TXT value. -/
structure DnsRecord where
  name : String
  rtype : String
  value : String
deriving DecidableEq

/-- Loop of V1's `AppendRecords` (`dns_ipv64.go` lines 116-166).  The
outcome of processing the i-th record — the error returned by its
`doWithRetryForm` call, or the "cannot derive managed zone" error, or
success — is given by the oracle `outcome`.  A failing record aborts
the batch at once, returning the records appended so far together with
the error; a successful record is appended and the loop continues. -/
def appendLoop (outcome : Nat → Option String) :
    List DnsRecord → Nat → List DnsRecord × Option String
  | [], _ => ([], none)
  | r :: rs, i =>
    match outcome i with
    | some e => ([], some e)
    | none =>
      let t := appendLoop outcome rs (i + 1)
      (r :: t.1, t.2)

/-- V1's `AppendRecords` (`dns_ipv64.go` lines 108-171): the `Validate`
guard rejects an empty token before any record is processed, then the
records are processed in order by `appendLoop`. -/
def appendRecordsV1 (token : String) (outcome : Nat → Option String)
    (recs : List DnsRecord) : List DnsRecord × Option String :=
  if token = "" then ([], some "api_token is required (or set IPV64_API_TOKEN)")
  else appendLoop outcome recs 0

/-- Loop of V1's `DeleteRecords` (`dns_ipv64.go` lines 185-237).  The
oracle gives the outcome for the i-th record; both per-record failure
modes of the source — an empty derived zone (`continue` on line 191)
and a failed `doWithRetryForm` call (`continue` on line 231) — skip the
record, and a successful delete appends it to the returned list. -/
def deleteLoop (outcome : Nat → Option String) :
    List DnsRecord → Nat → List DnsRecord
  | [], _ => []
  | r :: rs, i =>
    let rest := deleteLoop outcome rs (i + 1)
    match outcome i with
    | some _ => rest
    | none => r :: rest

/-- V1's `DeleteRecords` (`dns_ipv64.go` lines 174-239): after the
`Validate` guard, every record is processed and the function always
returns a nil error (`return deleted, nil` on line 238). -/
def deleteRecordsV1 (token : String) (outcome : Nat → Option String)
    (recs : List DnsRecord) : List DnsRecord × Option String :=
  if token = "" then ([], some "api_token is required (or set IPV64_API_TOKEN)")
  else (deleteLoop outcome recs 0, none)

/-- One form-urlencoded delete payload built by the background goroutine
of V2's `DeleteRecords` (`caddy-ipv64/dns_ipv64.go` lines 202-238). -/
structure DeleteForm where
  delRecord : String
  praefix : String
  rtype : String
  content : String
deriving DecidableEq

/-- Full-name computation of V2's `DeleteRecords` goroutine
(`caddy-ipv64/dns_ipv64.go` lines 205-218): a non-empty, non-"@" name
is joined with the trimmed zone (or used alone when the zone is empty);
otherwise the trimmed zone is used, falling back to the configured
domain when the zone is empty. -/
def v2FullName (cfgDomain zone name : String) : String :=
  let base := trimSuffixGo cfgDomain "."
  if name ≠ "" ∧ name ≠ "@" then
    let z := trimSuffixGo zone "."
    if z ≠ "" then trimSuffixGo name "." ++ "." ++ z else trimSuffixGo name "."
  else
    let z := trimSuffixGo zone "."
    if z ≠ "" then z else base

/-- The delete payload V2's background goroutine builds for one record
(`caddy-ipv64/dns_ipv64.go` lines 202-238). -/
def v2DeleteForm (pDomain zone : String) (r : DnsRecord) : DeleteForm :=
  let cfgDomain := trimSuffixGo pDomain "."
  let fullName := v2FullName cfgDomain zone r.name
  { delRecord := cfgDomain
    praefix := relativePrefixV2 fullName cfgDomain
    rtype := if r.rtype = "" then "TXT" else toUpperGo r.rtype
    content := r.value }

/-- Descriptor of the detached background goroutine spawned by V2's
`DeleteRecords`: the delay it waits before deleting, the timeout of the
fresh `context.WithTimeout(context.Background(), ...)` it creates for
its HTTP calls, and the delete payloads it will issue.  The goroutine
is modelled as data returned next to the function's immediate return
value: everything the goroutine will do is fixed at spawn time from the
provider configuration and the copied inputs, and none of it feeds back
into the value returned to the caller. -/
structure DeleteCleanup where
  delayMs : Nat
  ctxTimeoutMs : Nat
  requests : List DeleteForm
deriving DecidableEq

/-- V2's `DeleteRecords` (`caddy-ipv64/dns_ipv64.go` lines 171-275): it
spawns the cleanup goroutine over copies of its inputs and immediately
returns `(recs, nil)` (line 274).  The goroutine waits
`DeleteDelaySeconds`, then runs the per-record deletes under an
independent context with timeout `(TimeoutSeconds + 10)` seconds
(lines 194-195); per-record failures are logged and skipped. -/
def deleteRecordsV2 (pDomain : String) (deleteDelaySeconds timeoutSeconds : Nat)
    (zone : String) (recs : List DnsRecord) :
    (List DnsRecord × Option String) × DeleteCleanup :=
  ((recs, none),
   { delayMs := deleteDelaySeconds * 1000
     ctxTimeoutMs := (timeoutSeconds + 10) * 1000
     requests := recs.map (v2DeleteForm pDomain zone) })

/-- A fixed 500 response used by concrete runs. -/
def resp500w : HttpResponse := ⟨500, "500 Internal Server Error", none, "upstream exploded"⟩

/-- A fixed 200 response used by concrete runs. -/
def resp200w : HttpResponse := ⟨200, "200 OK", none, "ok"⟩

/-- A fixed 429 response carrying `Retry-After: 2`, which Go parses as
a 2000 ms sleep. -/
def resp429w : HttpResponse := ⟨429, "429 Too Many Requests", some (some 2000), "slow down"⟩

/-- A fixed 400 response used by concrete runs. -/
def resp400w : HttpResponse := ⟨400, "400 Bad Request", none, "bad"⟩

/-- A fixed 204 response: a 2xx status that is not in {200, 201, 202}. -/
def resp204w : HttpResponse := ⟨204, "204 No Content", none, ""⟩

/-- A server that answers every request with the 500 response. -/
def oracle500 : Nat → DoResult := fun _ => DoResult.success resp500w

/-- A server that answers every request with the 400 response. -/
def oracle400 : Nat → DoResult := fun _ => DoResult.success resp400w

/-- A server that answers every request with the 204 response. -/
def oracle204 : Nat → DoResult := fun _ => DoResult.success resp204w

/-- A server that rate-limits the first attempt with `Retry-After: 2`
and accepts the second. -/
def oracle429then200 : Nat → DoResult := fun i =>
  if i = 0 then DoResult.success resp429w else DoResult.success resp200w

/-- A run in which the first attempt gets a 500 and the caller's
context is cancelled during the following backoff sleep: in V1 the
sleep is a plain `time.Sleep`, so the cancellation only surfaces when
the next `client.Do` fails with Go's `context.Canceled` error text. -/
def oracleCtxCancel : Nat → DoResult := fun i =>
  if i = 0 then DoResult.success resp500w else DoResult.failure "context canceled"

/-- A context that is never cancelled. -/
def cancelNever : Nat → Bool := fun _ => false

/-- A context that is already cancelled whenever a sleep starts. -/
def cancelAlways : Nat → Bool := fun _ => true

/-- Concrete challenge records for batch runs. -/
def recA : DnsRecord := ⟨"_acme-challenge.web", "TXT", "tok1"⟩

/-- Concrete challenge records for batch runs. -/
def recB : DnsRecord := ⟨"_acme-challenge.api", "TXT", "tok2"⟩

/-- Per-record outcomes: the first record fails, the second succeeds. -/
def outcomeFailFirst : Nat → Option String := fun i => if i = 0 then some "boom" else none

/-- Per-record outcomes: the first record succeeds, the second fails. -/
def outcomeFailSecond : Nat → Option String := fun i => if i = 1 then some "boom" else none

theorem strData_append (a b : String) : (a ++ b).data = a.data ++ b.data := rfl

theorem strMk_data (s : String) : String.mk s.data = s := rfl

theorem dotData : ("." : String).data = ['.'] := rfl

theorem startsWithGo_append (pre rest : String) : startsWithGo (pre ++ rest) pre = true := by
  rw [startsWithGo, List.isPrefixOf_iff_prefix, strData_append]
  exact List.prefix_append _ _

theorem trimPrefixGo_append (pre rest : String) : trimPrefixGo (pre ++ rest) pre = rest := by
  have h : pre.data.isPrefixOf (pre ++ rest).data = true := startsWithGo_append pre rest
  simp [trimPrefixGo, h, strData_append, List.drop_left, strMk_data]

theorem endsWithGo_iff (s suf : String) : endsWithGo s suf = true ↔ suf.data <:+ s.data := by
  simp [endsWithGo, List.isSuffixOf_iff_suffix]

theorem endsWithGo_append_right (a rest suf : String) (h : endsWithGo rest suf = true) :
    endsWithGo (a ++ rest) suf = true := by
  rw [endsWithGo_iff] at h ⊢
  rw [strData_append]
  exact h.trans (List.suffix_append _ _)

theorem length_le_of_endsWithGo (s suf : String) (h : endsWithGo s suf = true) :
    suf.data.length ≤ s.data.length :=
  ((endsWithGo_iff s suf).1 h).length_le

theorem trimSuffixGo_append_of_endsWith (a rest suf : String) (h : endsWithGo rest suf = true) :
    trimSuffixGo (a ++ rest) suf = a ++ trimSuffixGo rest suf := by
  have h2 : endsWithGo (a ++ rest) suf = true := endsWithGo_append_right a rest suf h
  obtain ⟨t, ht⟩ := (endsWithGo_iff rest suf).1 h
  rw [endsWithGo] at h h2
  rw [trimSuffixGo, trimSuffixGo, if_pos h, if_pos h2]
  have hd : (a ++ rest).data = (a.data ++ t) ++ suf.data := by
    rw [strData_append, ← ht, List.append_assoc]
  have hlen1 : (a.data ++ t ++ suf.data).length - suf.data.length = (a.data ++ t).length := by
    simp only [List.length_append]
    omega
  have hlen2 : (t ++ suf.data).length - suf.data.length = t.length := by
    simp only [List.length_append]
    omega
  rw [hd, hlen1, List.take_left, ← ht, hlen2, List.take_left]
  rfl

theorem strNe_of_length_lt (x y : String) (h : x.data.length < y.data.length) : x ≠ y := by
  intro he
  rw [he] at h
  omega

theorem length_lt_of_endsWith_dot (rest mC : String)
    (h : endsWithGo rest ("." ++ mC) = true) : mC.data.length < rest.data.length := by
  have hle := length_le_of_endsWithGo rest ("." ++ mC) h
  rw [strData_append, dotData] at hle
  simp only [List.length_append, List.length_cons, List.length_nil] at hle
  omega

theorem formAux_const500 (doCall : Nat → DoResult) (resp : HttpResponse) (maxR : Nat)
    (hAll : ∀ i, doCall i = DoResult.success resp) (h500 : 500 ≤ resp.statusCode) :
    ∀ r attempt backoff,
      (doWithRetryFormAux doCall maxR r attempt backoff).attempts = r ∧
      (doWithRetryFormAux doCall maxR r attempt backoff).sleeps.length = r ∧
      (doWithRetryFormAux doCall maxR r attempt backoff).result =
        some ("ipv64 API failed after " ++ toString maxR ++ " attempts") := by
  intro r
  induction r with
  | zero =>
    intro attempt backoff
    simp [doWithRetryFormAux]
  | succ n ih =>
    intro attempt backoff
    have h1 : ¬ (200 ≤ resp.statusCode ∧ resp.statusCode < 300) := by omega
    have h2 : resp.statusCode = 429 ∨ 500 ≤ resp.statusCode := Or.inr h500
    obtain ⟨ha, hs, hr⟩ := ih (attempt + 1) (backoff * 2)
    simp [doWithRetryFormAux, hAll, h1, h2, ha, hs, hr]

theorem retryAux_const500 (doCall : Nat → DoResult) (resp : HttpResponse)
    (hAll : ∀ i, doCall i = DoResult.success resp) (h500 : 500 ≤ resp.statusCode) :
    ∀ n attempt sleepIdx backoff lastErr,
      (doWithRetryAux doCall cancelNever (n + 1) attempt sleepIdx backoff lastErr).attempts = n + 1 ∧
      (doWithRetryAux doCall cancelNever (n + 1) attempt sleepIdx backoff lastErr).sleeps.length = n ∧
      (doWithRetryAux doCall cancelNever (n + 1) attempt sleepIdx backoff lastErr).result =
        RetryResultV2.err (some ("server error " ++ toString resp.statusCode ++ ": " ++ resp.body)) := by
  intro n
  induction n with
  | zero =>
    intro attempt sleepIdx backoff lastErr
    simp [doWithRetryAux, hAll, h500]
  | succ m ih =>
    intro attempt sleepIdx backoff lastErr
    obtain ⟨ha, hs, hr⟩ := ih (attempt + 1) (sleepIdx + 1) (backoff * 2)
      (some ("server error " ++ toString resp.statusCode ++ ": " ++ resp.body))
    rw [doWithRetryAux]
    simp [hAll, h500, cancelNever, ha, hs, hr]

/-- C1: for maxRetries = N (N ≥ 1) and a server answering every request
with HTTP 500, the claim says the retrying send performs exactly N+1
attempts before its terminal failure.  That holds for V2's `doWithRetry`
(loop `attempt <= maxRetries`) but fails for V1's `doWithRetryForm`
(loop `attempt < maxRetries`), which performs exactly N attempts.
Amended: `doWithRetry` performs exactly N+1 attempts and returns the
terminal "server error" failure; `doWithRetryForm` performs exactly N
attempts and returns the terminal "failed after N attempts" error. -/
theorem C1_retry_attempt_counts (doCall : Nat → DoResult) (resp : HttpResponse) (N b : Nat)
    (_hN : 1 ≤ N) (hAll : ∀ i, doCall i = DoResult.success resp) (h500 : 500 ≤ resp.statusCode) :
    (doWithRetry doCall cancelNever N b).attempts = N + 1 ∧
    (doWithRetry doCall cancelNever N b).result =
      RetryResultV2.err (some ("server error " ++ toString resp.statusCode ++ ": " ++ resp.body)) ∧
    (doWithRetryForm doCall N b).attempts = N ∧
    (doWithRetryForm doCall N b).result =
      some ("ipv64 API failed after " ++ toString N ++ " attempts") := by
  obtain ⟨h1, _, h2⟩ := retryAux_const500 doCall resp hAll h500 N 0 0 b none
  obtain ⟨h3, _, h4⟩ := formAux_const500 doCall resp N hAll h500 N 0 b
  exact ⟨h1, h2, h3, h4⟩

/-- C1 witness: at N = 2 against the constant-500 server, `doWithRetry`
makes 3 attempts and `doWithRetryForm` makes 2. -/
theorem C1_retry_attempt_counts_witness :
    (doWithRetry oracle500 cancelNever 2 300).attempts = 2 + 1 ∧
    (doWithRetryForm oracle500 2 300).attempts = 2 :=
  ⟨(C1_retry_attempt_counts oracle500 resp500w 2 300 (by decide) (fun _ => rfl) (by decide)).1,
   (C1_retry_attempt_counts oracle500 resp500w 2 300 (by decide) (fun _ => rfl) (by decide)).2.2.1⟩

/-- C1 counterexample: with maxRetries = 1 and a constant-500 server,
V1's `doWithRetryForm` performs exactly 1 outbound attempt before its
terminal failure, not 1 + 1 = 2 as the claim states. -/
theorem C1_counterexample :
    (doWithRetryForm oracle500 1 500).attempts = 1 ∧
    (doWithRetryForm oracle500 1 500).result = some "ipv64 API failed after 1 attempts" ∧
    (1 : Nat) ≠ 1 + 1 := by
  decide

/-- C2: the claim says a 429 response with a parseable Retry-After of S
seconds makes the client sleep S seconds instead of the computed
backoff, with doubling still applied afterwards.  That holds for V2's
`doWithRetry` but fails for V1's `doWithRetryForm`, which never reads
Retry-After and sleeps the computed backoff.  Amended and proved here:
when attempt 0 returns 429 with Retry-After parsing to `ms` and the
context is live, `doWithRetry` equals one attempt plus a sleep of
exactly `ms` (independent of the configured backoff `b`) followed by
the rest of the run started with backoff `b * 2` and an unchanged
`lastErr`; `doWithRetryForm` on the same run sleeps the configured
backoff `b` first. -/
theorem C2_retry_after_sleep (doCall : Nat → DoResult) (cancelAt : Nat → Bool)
    (maxR b ms : Nat) (resp : HttpResponse)
    (hm : 1 ≤ maxR)
    (h0 : doCall 0 = DoResult.success resp)
    (h429 : resp.statusCode = 429)
    (hRA : resp.retryAfter = some (some ms))
    (hc : cancelAt 0 = false) :
    doWithRetry doCall cancelAt maxR b =
      { attempts := (doWithRetryAux doCall cancelAt maxR 1 1 (b * 2) none).attempts + 1
        sleeps := ms :: (doWithRetryAux doCall cancelAt maxR 1 1 (b * 2) none).sleeps
        result := (doWithRetryAux doCall cancelAt maxR 1 1 (b * 2) none).result } ∧
    (doWithRetryForm doCall maxR b).sleeps.head? = some b := by
  constructor
  · have hn500 : ¬ (500 ≤ resp.statusCode) := by omega
    rw [doWithRetry, doWithRetryAux]
    simp [h0, hn500, h429, hRA, hc]
  · obtain ⟨n, rfl⟩ : ∃ n, maxR = n + 1 := ⟨maxR - 1, by omega⟩
    have hn2xx : ¬ (200 ≤ resp.statusCode ∧ resp.statusCode < 300) := by omega
    have hret : resp.statusCode = 429 ∨ 500 ≤ resp.statusCode := Or.inl h429
    rw [doWithRetryForm, doWithRetryFormAux]
    simp [h0, hn2xx, hret]

/-- C2 witness: maxRetries 2, configured backoff 500 ms, first response
429 with Retry-After 2 s: `doWithRetry` sleeps 2000 ms first and
continues with backoff 1000 ms; `doWithRetryForm` sleeps 500 ms. -/
theorem C2_retry_after_sleep_witness :
    doWithRetry oracle429then200 cancelNever 2 500 =
      { attempts := (doWithRetryAux oracle429then200 cancelNever 2 1 1 (500 * 2) none).attempts + 1
        sleeps := 2000 :: (doWithRetryAux oracle429then200 cancelNever 2 1 1 (500 * 2) none).sleeps
        result := (doWithRetryAux oracle429then200 cancelNever 2 1 1 (500 * 2) none).result } ∧
    (doWithRetryForm oracle429then200 2 500).sleeps.head? = some 500 :=
  C2_retry_after_sleep oracle429then200 cancelNever 2 500 2000 resp429w
    (by decide) rfl (by decide) (by decide) rfl

/-- C2 counterexample: V1's `doWithRetryForm`, faced with a 429 whose
Retry-After parses to 2000 ms (2 seconds) and a configured backoff of
500 ms, sleeps 500 ms — the computed backoff — before the next attempt,
not the 2000 ms the claim requires for "the retrying HTTP send". -/
theorem C2_counterexample :
    (doWithRetryForm oracle429then200 3 500).sleeps = [500] ∧
    (doWithRetryForm oracle429then200 3 500).result = none ∧
    resp429w.retryAfter = some (some 2000) ∧
    (500 : Nat) ≠ 2000 := by
  decide

/-- C3: the claim says a cancellation arriving during any inter-attempt
sleep aborts the whole operation immediately with a cancellation error
and no further attempt.  That holds for V2's `doWithRetry`, whose two
sleep sites race `ctx.Done()`, and is proved here for all three retried
outcomes (5xx, 429 with or without Retry-After, network error): with
the context done at the sleep, the run ends after exactly one attempt,
no completed sleep, and result `cancelled` (the returned `ctx.Err()`).
It fails for V1's `doWithRetryForm`, whose sleeps are plain
`time.Sleep` — see the counterexample. -/
theorem C3_cancelled_sleep (maxR b : Nat) (hm : 1 ≤ maxR) :
    (∀ doCall resp, doCall 0 = DoResult.success resp → 500 ≤ resp.statusCode →
      doWithRetry doCall cancelAlways maxR b =
        { attempts := 1, sleeps := [], result := RetryResultV2.cancelled }) ∧
    (∀ doCall resp, doCall 0 = DoResult.success resp → resp.statusCode = 429 →
      doWithRetry doCall cancelAlways maxR b =
        { attempts := 1, sleeps := [], result := RetryResultV2.cancelled }) ∧
    (∀ doCall msg, doCall 0 = DoResult.failure msg →
      doWithRetry doCall cancelAlways maxR b =
        { attempts := 1, sleeps := [], result := RetryResultV2.cancelled }) := by
  obtain ⟨n, rfl⟩ : ∃ n, maxR = n + 1 := ⟨maxR - 1, by omega⟩
  refine ⟨?_, ?_, ?_⟩
  · intro doCall resp h0 h5
    rw [doWithRetry, doWithRetryAux]
    simp [h0, h5, cancelAlways]
  · intro doCall resp h0 h4
    have hn5 : ¬ (500 ≤ resp.statusCode) := by omega
    rw [doWithRetry, doWithRetryAux]
    simp [h0, hn5, h4, cancelAlways]
  · intro doCall msg h0
    rw [doWithRetry, doWithRetryAux]
    simp [h0, cancelAlways]

/-- C3 witness: a 500 on attempt 0 with the context done at the backoff
sleep: `doWithRetry` stops after 1 attempt with the cancellation
result. -/
theorem C3_cancelled_sleep_witness :
    doWithRetry oracle500 cancelAlways 2 300 =
      { attempts := 1, sleeps := [], result := RetryResultV2.cancelled } :=
  (C3_cancelled_sleep 2 300 (by decide)).1 oracle500 resp500w rfl (by decide)

/-- C3 counterexample: in V1's `doWithRetryForm` the backoff sleep is a
plain `time.Sleep` (line 255/275) that the context cannot pre-empt.
With a 500 on attempt 0 and the context cancelled during the following
sleep, the full 500 ms sleep elapses and a second attempt is still
issued (which then fails with Go's "context canceled" error): 2
attempts, not the immediate abort without a further attempt that the
claim states. -/
theorem C3_counterexample :
    doWithRetryForm oracleCtxCancel 3 500 =
      { attempts := 2, sleeps := [500], result := some "context canceled" } ∧
    (2 : Nat) ≠ 1 := by
  decide

/-- C4: the claim says a response that is neither 2xx nor 429 nor 5xx
ends the operation with that single attempt — 2xx being immediate
success and any other such status a terminal failure carrying the
status line and body.  V1's `doWithRetryForm` behaves exactly so, and
V2's `doWithRetry` also stops at one attempt, returning the response;
but V2's create path (`AppendRecords`) then accepts exactly the
statuses 200, 201 and 202, so a 2xx outside that set (e.g. 204) is a
terminal failure there, refuting the "any 2xx is success" part — see
the counterexample.  Amended and proved here: for a first response with
status outside 429 and 5xx, both loops stop after exactly one attempt
with no sleep; `doWithRetryForm` returns success exactly on 2xx and
otherwise the "ipv64 API error" message built from status line and
body; `doWithRetry` returns the response, and the create-path
classification `createStatusError` yields success exactly on
200/201/202 and otherwise the "ipv64.net API error" message built from
status line and body. -/
theorem C4_non_retryable (doCall : Nat → DoResult) (cancelAt : Nat → Bool)
    (resp : HttpResponse) (maxR b : Nat)
    (hm : 1 ≤ maxR) (h0 : doCall 0 = DoResult.success resp)
    (hn429 : resp.statusCode ≠ 429) (hn5 : resp.statusCode < 500) :
    (200 ≤ resp.statusCode ∧ resp.statusCode < 300 →
      doWithRetryForm doCall maxR b = { attempts := 1, sleeps := [], result := none }) ∧
    (¬ (200 ≤ resp.statusCode ∧ resp.statusCode < 300) →
      doWithRetryForm doCall maxR b =
        { attempts := 1, sleeps := [],
          result := some ("ipv64 API error: " ++ resp.status ++ " (response: " ++ resp.body ++ ")") }) ∧
    doWithRetry doCall cancelAt maxR b =
      { attempts := 1, sleeps := [], result := RetryResultV2.ok resp } ∧
    (resp.statusCode = 200 ∨ resp.statusCode = 201 ∨ resp.statusCode = 202 →
      createStatusError resp = none) ∧
    (¬ (resp.statusCode = 200 ∨ resp.statusCode = 201 ∨ resp.statusCode = 202) →
      createStatusError resp =
        some ("ipv64.net API error: " ++ resp.status ++ " " ++ resp.body)) := by
  obtain ⟨n, rfl⟩ : ∃ n, maxR = n + 1 := ⟨maxR - 1, by omega⟩
  have hnr : ¬ (resp.statusCode = 429 ∨ 500 ≤ resp.statusCode) := by omega
  have hn5' : ¬ (500 ≤ resp.statusCode) := by omega
  refine ⟨?_, ?_, ?_, ?_, ?_⟩
  · intro h2xx
    rw [doWithRetryForm, doWithRetryFormAux]
    simp [h0, h2xx]
  · intro hn2xx
    rw [doWithRetryForm, doWithRetryFormAux]
    simp [h0, hn2xx, hnr]
  · rw [doWithRetry, doWithRetryAux]
    simp [h0, hn5', hn429]
  · intro hsucc
    simp [createStatusError, hsucc]
  · intro hfail
    simp [createStatusError, hfail]

/-- C4 witness: a 400 on the first attempt: `doWithRetryForm` fails
terminally after exactly one attempt with the status line and body in
the error, and `doWithRetry` returns the response after one attempt. -/
theorem C4_non_retryable_witness :
    doWithRetryForm oracle400 2 500 =
      { attempts := 1, sleeps := [],
        result := some ("ipv64 API error: " ++ resp400w.status ++ " (response: " ++ resp400w.body ++ ")") } ∧
    doWithRetry oracle400 cancelNever 2 500 =
      { attempts := 1, sleeps := [], result := RetryResultV2.ok resp400w } :=
  ⟨(C4_non_retryable oracle400 cancelNever resp400w 2 500 (by decide) rfl (by decide) (by decide)).2.1
      (by decide),
   (C4_non_retryable oracle400 cancelNever resp400w 2 500 (by decide) rfl (by decide) (by decide)).2.2.1⟩

/-- C4 counterexample: 204 No Content is a 2xx status, the retry loop
returns it as a non-error response, yet V2's create path classifies it
as a terminal failure ("ipv64.net API error: ..."), contradicting the
claim that a 2xx status returns success. -/
theorem C4_counterexample :
    (200 ≤ resp204w.statusCode ∧ resp204w.statusCode < 300) ∧
    (doWithRetry oracle204 cancelNever 2 500).result = RetryResultV2.ok resp204w ∧
    createStatusError resp204w = some "ipv64.net API error: 204 No Content " ∧
    createStatusError resp204w ≠ none := by
  decide

/-- C5: the claim says a configured non-empty override is returned
verbatim (up to trailing-dot trimming) for every fqdn and zone.  It
fails when the (trimmed) fqdn equals the (trimmed) zone: the
`fqdn == zone` test on line 333 of `dns_ipv64.go` precedes the override
test, so the zone is returned and the override ignored — see the
counterexample.  Amended and proved here: whenever the trimmed fqdn
differs from the trimmed zone, a non-empty override is returned with
only its trailing dot trimmed; and the relative label is "@" when the
cleaned fqdn equals the cleaned managed domain and the suffix of the
fqdn after stripping "." ++ managed when the managed domain is a proper
dot-suffix. -/
theorem C5_override_derivation (pDomain fqdn zone : String)
    (hDom : pDomain ≠ "") (hNe : trimSuffixGo fqdn "." ≠ trimSuffixGo zone ".") :
    deriveManagedZone pDomain fqdn zone = trimSuffixGo pDomain "." ∧
    (∀ managed, trimSuffixGo fqdn "." = trimSuffixGo managed "." →
      computePrefixV1 fqdn managed = "@") ∧
    (∀ managed, trimSuffixGo fqdn "." ≠ trimSuffixGo managed "." →
      endsWithGo (trimSuffixGo fqdn ".") ("." ++ trimSuffixGo managed ".") = true →
      computePrefixV1 fqdn managed =
        trimSuffixGo (trimSuffixGo fqdn ".") ("." ++ trimSuffixGo managed ".")) := by
  refine ⟨?_, ?_, ?_⟩
  · simp [deriveManagedZone, hNe, hDom]
  · intro managed h
    simp [computePrefixV1, h]
  · intro managed h1 h2
    simp [computePrefixV1, h1, h2]

/-- C5 witness: override "user.ipv64.de", fqdn
"_acme-challenge.web.user.ipv64.de": the override is returned trimmed
and the label is the fqdn with ".user.ipv64.de" stripped. -/
theorem C5_override_derivation_witness :
    deriveManagedZone "user.ipv64.de" "_acme-challenge.web.user.ipv64.de" "user.ipv64.de." =
      trimSuffixGo "user.ipv64.de" "." ∧
    computePrefixV1 "_acme-challenge.web.user.ipv64.de" "user.ipv64.de" =
      trimSuffixGo (trimSuffixGo "_acme-challenge.web.user.ipv64.de" ".")
        ("." ++ trimSuffixGo "user.ipv64.de" ".") :=
  ⟨(C5_override_derivation "user.ipv64.de" "_acme-challenge.web.user.ipv64.de" "user.ipv64.de."
      (by decide) (by decide)).1,
   (C5_override_derivation "user.ipv64.de" "_acme-challenge.web.user.ipv64.de" "user.ipv64.de."
      (by decide) (by decide)).2.2 "user.ipv64.de" (by decide) (by decide)⟩

/-- C5 counterexample: with the override configured as "override.net"
but fqdn equal to the zone "example.org", the derivation returns
"example.org", not the override (whose trimmed form is still
"override.net"), refuting "returns the override verbatim for every
fqdn and zone". -/
theorem C5_counterexample :
    deriveManagedZone "override.net" "example.org" "example.org." = "example.org" ∧
    ("example.org" : String) ≠ "override.net" ∧
    trimSuffixGo "override.net" "." = "override.net" := by
  decide

theorem cand64_ne_empty (parts : List String) (i : Nat) (c : String)
    (h : cand64 parts i = some c) : c ≠ "" := by
  simp only [cand64] at h
  split at h
  next h3 =>
    split at h
    next h4 =>
      have he := Option.some.inj h
      intro hc
      rw [he, hc] at h3
      exact absurd h3 (by decide)
    next => exact Option.noConfusion h
  next => exact Option.noConfusion h

theorem scan64_some (parts : List String) (c : String) :
    ∀ i, scan64 parts i = some c → ∃ j, cand64 parts j = some c := by
  intro i
  induction i with
  | zero => intro h; exact ⟨0, h⟩
  | succ n ih =>
    intro h
    rw [scan64] at h
    cases hc : cand64 parts (n + 1) with
    | some c2 =>
      rw [hc] at h
      exact ⟨n + 1, hc.trans h⟩
    | none =>
      rw [hc] at h
      exact ih h

theorem deriveHeuristic_ne_empty (w : String) (hw : w ≠ "") : deriveHeuristic w ≠ "" := by
  simp only [deriveHeuristic]
  split
  · cases hs : scan64 (splitDotsGo w) ((splitDotsGo w).length - 2) with
    | some c =>
      simp only [hs]
      obtain ⟨j, hj⟩ := scan64_some (splitDotsGo w) c _ hs
      exact cand64_ne_empty (splitDotsGo w) j c hj
    | none =>
      simp only [hs]
      exact hw
  · exact hw

/-- C6: the claim says the `_acme-challenge.` prefix is stripped before
the managed-domain heuristic *and* before computing the relative label.
The first half holds: the heuristic only ever sees the stripped name.
The second half fails: `AppendRecords` computes the label from the
unstripped fqdn, so the label retains the `_acme-challenge.` prefix
(which is what places the TXT record at the challenge name) — see the
counterexample.  Amended and proved here: for a dot-clean fqdn of the
form `_acme-challenge.` ++ rest (not equal to the trimmed zone), the
derivation equals the heuristic applied to `rest` alone, and whenever
the cleaned managed domain is a proper dot-suffix of `rest`, the
relative label is `_acme-challenge.` ++ (label of `rest`). -/
theorem C6_challenge_strip (rest zone : String)
    (h1 : trimSuffixGo ("_acme-challenge." ++ rest) "." = "_acme-challenge." ++ rest)
    (h3 : trimSuffixGo rest "." = rest)
    (h2 : "_acme-challenge." ++ rest ≠ trimSuffixGo zone ".") :
    deriveManagedZone "" ("_acme-challenge." ++ rest) zone = deriveHeuristic rest ∧
    (∀ managed, endsWithGo rest ("." ++ trimSuffixGo managed ".") = true →
      computePrefixV1 ("_acme-challenge." ++ rest) managed =
        "_acme-challenge." ++ computePrefixV1 rest managed) := by
  constructor
  · simp [deriveManagedZone, challengeStripped, h1, h2, startsWithGo_append, trimPrefixGo_append]
  · intro managed hSuf
    have hlt : (trimSuffixGo managed ".").data.length < rest.data.length :=
      length_lt_of_endsWith_dot rest (trimSuffixGo managed ".") hSuf
    have hlen : ("_acme-challenge." ++ rest).data.length =
        ("_acme-challenge." : String).data.length + rest.data.length := by
      rw [strData_append, List.length_append]
    have hne1 : ¬ ("_acme-challenge." ++ rest = trimSuffixGo managed ".") :=
      (strNe_of_length_lt (trimSuffixGo managed ".") ("_acme-challenge." ++ rest)
        (by omega)).symm
    have hne2 : ¬ (rest = trimSuffixGo managed ".") :=
      (strNe_of_length_lt (trimSuffixGo managed ".") rest hlt).symm
    have hsuf2 : endsWithGo ("_acme-challenge." ++ rest) ("." ++ trimSuffixGo managed ".") = true :=
      endsWithGo_append_right "_acme-challenge." rest ("." ++ trimSuffixGo managed ".") hSuf
    simp only [computePrefixV1, h1, h3]
    rw [if_neg hne1, if_neg hne2, if_pos hsuf2, if_pos hSuf]
    exact trimSuffixGo_append_of_endsWith "_acme-challenge." rest
      ("." ++ trimSuffixGo managed ".") hSuf

/-- C6 witness: rest "web.user.ipv64.de", zone "user.ipv64.de.",
managed "user.ipv64.de": the heuristic runs on the stripped name and
the label keeps the challenge prefix. -/
theorem C6_challenge_strip_witness :
    deriveManagedZone "" ("_acme-challenge." ++ "web.user.ipv64.de") "user.ipv64.de." =
      deriveHeuristic "web.user.ipv64.de" ∧
    computePrefixV1 ("_acme-challenge." ++ "web.user.ipv64.de") "user.ipv64.de" =
      "_acme-challenge." ++ computePrefixV1 "web.user.ipv64.de" "user.ipv64.de" :=
  ⟨(C6_challenge_strip "web.user.ipv64.de" "user.ipv64.de." (by decide) (by decide) (by decide)).1,
   (C6_challenge_strip "web.user.ipv64.de" "user.ipv64.de." (by decide) (by decide) (by decide)).2
      "user.ipv64.de" (by decide)⟩

/-- C6 counterexample: for `_acme-challenge.web.user.ipv64.de` in zone
`user.ipv64.de.`, the heuristic correctly finds `user.ipv64.de`, but
the relative label is `_acme-challenge.web` — the challenge prefix was
not stripped before computing the label, contradicting the claim (which
would give label `web`). -/
theorem C6_counterexample :
    deriveManagedZone "" "_acme-challenge.web.user.ipv64.de" "user.ipv64.de." = "user.ipv64.de" ∧
    computePrefixV1 "_acme-challenge.web.user.ipv64.de" "user.ipv64.de" = "_acme-challenge.web" ∧
    ("_acme-challenge.web" : String) ≠ "web" := by
  decide

/-- C7: the claim says a zone-derivation miss degrades to a best-effort
guess using the fqdn's *first dot-separated label* as the relative
label.  V1's `AppendRecords`/`DeleteRecords` do exactly that
(`parts[0]`), but V2's `relativePrefix` falls back to the *entire*
lowercased, dot-trimmed name — see the counterexample.  Amended and
proved here: on a miss (cleaned fqdn neither equal to nor a dot-suffix
extension of the cleaned managed domain), V1's label is the first
dot-separated label, V2's label is the whole cleaned name, and the
derivation itself still does not fail: with no override and a non-empty
working name, `deriveManagedZone` never returns the empty string that
would abort `AppendRecords`. -/
theorem C7_fallback_labels :
    (∀ fqdn managed, trimSuffixGo fqdn "." ≠ trimSuffixGo managed "." →
      endsWithGo (trimSuffixGo fqdn ".") ("." ++ trimSuffixGo managed ".") = false →
      computePrefixV1 fqdn managed = (splitDotsGo (trimSuffixGo fqdn ".")).getD 0 "") ∧
    (∀ fullName domain,
      trimSuffixGo (toLowerGo fullName) "." ≠ trimSuffixGo (toLowerGo domain) "." →
      endsWithGo (trimSuffixGo (toLowerGo fullName) ".")
        ("." ++ trimSuffixGo (toLowerGo domain) ".") = false →
      relativePrefixV2 fullName domain = trimSuffixGo (toLowerGo fullName) ".") ∧
    (∀ fqdn zone, trimSuffixGo fqdn "." ≠ trimSuffixGo zone "." →
      challengeStripped (trimSuffixGo fqdn ".") ≠ "" →
      deriveManagedZone "" fqdn zone ≠ "") := by
  refine ⟨?_, ?_, ?_⟩
  · intro fqdn managed h1 h2
    simp [computePrefixV1, h1, h2]
  · intro fullName domain h1 h2
    simp [relativePrefixV2, h1, h2]
  · intro fqdn zone h1 h2
    have hd : deriveManagedZone "" fqdn zone =
        deriveHeuristic (challengeStripped (trimSuffixGo fqdn ".")) := by
      simp [deriveManagedZone, h1]
    rw [hd]
    exact deriveHeuristic_ne_empty (challengeStripped (trimSuffixGo fqdn ".")) h2

/-- C7 witness: fqdn "a.b.c" against managed domain "other.com": V1's
label is "a", V2's label is "a.b.c", and the derivation for "a.b.c" in
an unrelated zone yields a non-empty managed domain. -/
theorem C7_fallback_labels_witness :
    computePrefixV1 "a.b.c" "other.com" = (splitDotsGo (trimSuffixGo "a.b.c" ".")).getD 0 "" ∧
    relativePrefixV2 "a.b.c" "other.com" = trimSuffixGo (toLowerGo "a.b.c") "." ∧
    deriveManagedZone "" "a.b.c" "zone.example." ≠ "" :=
  ⟨C7_fallback_labels.1 "a.b.c" "other.com" (by decide) (by decide),
   C7_fallback_labels.2.1 "a.b.c" "other.com" (by decide) (by decide),
   C7_fallback_labels.2.2 "a.b.c" "zone.example." (by decide) (by decide)⟩

/-- C7 counterexample: on the derivation miss "a.b.c" vs "other.com",
V2's `relativePrefix` returns the whole name "a.b.c", not the first
dot-separated label "a" required by the claim (V1 does return "a"). -/
theorem C7_counterexample :
    relativePrefixV2 "a.b.c" "other.com" = "a.b.c" ∧
    computePrefixV1 "a.b.c" "other.com" = "a" ∧
    ("a.b.c" : String) ≠ "a" := by
  decide

theorem appendLoop_all_ok (outcome : Nat → Option String) :
    ∀ (recs : List DnsRecord) (s : Nat),
      (∀ k, k < recs.length → outcome (s + k) = none) →
      appendLoop outcome recs s = (recs, none) := by
  intro recs
  induction recs with
  | nil => intro s h; rfl
  | cons r rs ih =>
    intro s h
    have h0 : outcome s = none := by simpa using h 0 (by simp)
    have hrec : appendLoop outcome rs (s + 1) = (rs, none) := by
      apply ih
      intro k hk
      have h2 := h (k + 1) (by simp; omega)
      have h3 : s + (k + 1) = s + 1 + k := by omega
      rwa [h3] at h2
    simp [appendLoop, h0, hrec]

theorem appendLoop_first_fail (outcome : Nat → Option String) :
    ∀ (recs : List DnsRecord) (s j : Nat) (e : String),
      j < recs.length →
      (∀ k, k < j → outcome (s + k) = none) →
      outcome (s + j) = some e →
      appendLoop outcome recs s = (recs.take j, some e) := by
  intro recs
  induction recs with
  | nil =>
    intro s j e hj hpre hfail
    simp at hj
  | cons r rs ih =>
    intro s j e hj hpre hfail
    cases j with
    | zero =>
      have h0 : outcome s = some e := by simpa using hfail
      simp [appendLoop, h0]
    | succ m =>
      have h0 : outcome s = none := by simpa using hpre 0 (by omega)
      have hrec : appendLoop outcome rs (s + 1) = (rs.take m, some e) := by
        apply ih (s + 1) m e
        · simp at hj; omega
        · intro k hk
          have h2 := hpre (k + 1) (by omega)
          have h3 : s + (k + 1) = s + 1 + k := by omega
          rwa [h3] at h2
        · have h3 : s + (m + 1) = s + 1 + m := by omega
          rwa [h3] at hfail
      simp [appendLoop, h0, hrec]

/-- C8: `AppendRecords` processes records in order; with a non-empty
token, if every per-record create call succeeds the whole input list is
returned applied with a nil error, and on the first failing record the
batch stops and the records applied so far are returned together with
that record's error.  Confirmed against V1's `AppendRecords` (V2's
`AppendRecords` has the same early-return structure). -/
theorem C8_append_batch (token : String) (outcome : Nat → Option String)
    (recs : List DnsRecord) (htok : token ≠ "") :
    ((∀ i, i < recs.length → outcome i = none) →
      appendRecordsV1 token outcome recs = (recs, none)) ∧
    (∀ j e, j < recs.length → (∀ i, i < j → outcome i = none) → outcome j = some e →
      appendRecordsV1 token outcome recs = (recs.take j, some e)) := by
  constructor
  · intro h
    rw [appendRecordsV1, if_neg htok]
    exact appendLoop_all_ok outcome recs 0 (fun k hk => by simpa using h k hk)
  · intro j e hj hpre hfail
    rw [appendRecordsV1, if_neg htok]
    exact appendLoop_first_fail outcome recs 0 j e hj
      (fun k hk => by simpa using hpre k hk) (by simpa using hfail)

/-- C8 witness: two records, the second create call fails with "boom":
the batch stops with the first record applied and the error surfaced. -/
theorem C8_append_batch_witness :
    appendRecordsV1 "token123" outcomeFailSecond [recA, recB] =
      ([recA, recB].take 1, some "boom") := by
  refine (C8_append_batch "token123" outcomeFailSecond [recA, recB] (by decide)).2 1 "boom"
    (by decide) (fun i hi => ?_) (by decide)
  have h0 : i = 0 := by omega
  subst h0
  decide

theorem deleteLoop_sublist (outcome : Nat → Option String) :
    ∀ (recs : List DnsRecord) (s : Nat), (deleteLoop outcome recs s).Sublist recs := by
  intro recs
  induction recs with
  | nil => intro s; simp [deleteLoop]
  | cons r rs ih =>
    intro s
    simp only [deleteLoop]
    cases h : outcome s with
    | some e =>
      simp only [h]
      exact List.Sublist.cons r (ih (s + 1))
    | none =>
      simp only [h]
      exact List.Sublist.cons₂ r (ih (s + 1))

theorem deleteLoop_mem (outcome : Nat → Option String) :
    ∀ (recs : List DnsRecord) (s j : Nat) (hj : j < recs.length),
      outcome (s + j) = none → recs.get ⟨j, hj⟩ ∈ deleteLoop outcome recs s := by
  intro recs
  induction recs with
  | nil => intro s j hj; simp at hj
  | cons r rs ih =>
    intro s j hj hnone
    cases j with
    | zero =>
      have h0 : outcome s = none := by simpa using hnone
      simp [deleteLoop, h0]
    | succ m =>
      have hm : m < rs.length := by simp at hj; omega
      have hr := ih (s + 1) m hm (by
        have h3 : s + (m + 1) = s + 1 + m := by omega
        rwa [h3] at hnone)
      have hget : (r :: rs).get ⟨m + 1, hj⟩ = rs.get ⟨m, hm⟩ := rfl
      rw [hget]
      simp only [deleteLoop]
      cases h : outcome s with
      | some e =>
        simp only [h]
        exact hr
      | none =>
        simp only [h]
        exact List.mem_cons_of_mem r hr

/-- C9: with a non-empty token, `DeleteRecords` never surfaces a
per-record delete failure: the returned error is nil for every outcome
pattern, the returned list is a sublist of the input (order preserved),
and every record whose delete call succeeds is in the returned list
even when earlier records failed — the batch is never aborted.
Confirmed against V1's `DeleteRecords` (V2's delete path likewise
`continue`s on every per-record failure). -/
theorem C9_delete_never_fails (token : String) (outcome : Nat → Option String)
    (recs : List DnsRecord) (htok : token ≠ "") :
    (deleteRecordsV1 token outcome recs).2 = none ∧
    (deleteRecordsV1 token outcome recs).1.Sublist recs ∧
    (∀ j (hj : j < recs.length), outcome j = none →
      recs.get ⟨j, hj⟩ ∈ (deleteRecordsV1 token outcome recs).1) := by
  rw [deleteRecordsV1, if_neg htok]
  refine ⟨rfl, deleteLoop_sublist outcome recs 0, ?_⟩
  intro j hj hnone
  exact deleteLoop_mem outcome recs 0 j hj (by simpa using hnone)

/-- C9 witness: two records, the first delete call fails: the overall
operation still returns a nil error and the second record was still
processed and deleted. -/
theorem C9_delete_never_fails_witness :
    (deleteRecordsV1 "token123" outcomeFailFirst [recA, recB]).2 = none ∧
    recB ∈ (deleteRecordsV1 "token123" outcomeFailFirst [recA, recB]).1 :=
  ⟨(C9_delete_never_fails "token123" outcomeFailFirst [recA, recB] (by decide)).1,
   (C9_delete_never_fails "token123" outcomeFailFirst [recA, recB] (by decide)).2.2 1
      (by decide) (by decide)⟩

/-- C10: V2's asynchronous `DeleteRecords` immediately returns exactly
its input record list with a nil error — the synchronous return value
is computed without any delay, outbound call or delete outcome (the
model's returned pair takes no outcome oracle at all) — while the
actual deletions are described by the spawned cleanup task, which runs
under an independent fresh context whose timeout is
(TimeoutSeconds + 10) seconds and which carries one delete payload per
input record.  Confirmed. -/
theorem C10_async_delete_returns_input (pDomain : String)
    (deleteDelaySeconds timeoutSeconds : Nat) (zone : String) (recs : List DnsRecord) :
    (deleteRecordsV2 pDomain deleteDelaySeconds timeoutSeconds zone recs).1 = (recs, none) ∧
    (deleteRecordsV2 pDomain deleteDelaySeconds timeoutSeconds zone recs).2.ctxTimeoutMs =
      (timeoutSeconds + 10) * 1000 ∧
    (deleteRecordsV2 pDomain deleteDelaySeconds timeoutSeconds zone recs).2.delayMs =
      deleteDelaySeconds * 1000 ∧
    (deleteRecordsV2 pDomain deleteDelaySeconds timeoutSeconds zone recs).2.requests =
      recs.map (v2DeleteForm pDomain zone) ∧
    (deleteRecordsV2 pDomain deleteDelaySeconds timeoutSeconds zone recs).2.requests.length =
      recs.length := by
  refine ⟨rfl, rfl, rfl, rfl, ?_⟩
  simp [deleteRecordsV2]
